import Mathlib

/-!
# Verification of the OAuth PKCE core of the jira_agent repository

This file gives a shallow embedding, in Lean 4, of the OAuth 2.0 PKCE
helper functions of `config/oauth.js` and of the authorization workflow
controller of `server.js`, and proves the design-contract properties of
the specification against them.

Modelling conventions:
* JavaScript byte sequences (Node `Buffer`s, and the byte encodings of
  JS strings where the code hashes or percent-encodes them) are
  `List Nat` with every element `< 256`.
* JS strings handled only opaquely (session fields, redirect targets,
  error messages) are Lean `String`.
* Machine integers and `Date.now()` timestamps are `Int`; SHA-256 words
  are `Nat` reduced explicitly mod `2 ^ 32`.
* The HTTP layer is made explicit: a provider behaviour value (an HTTP
  response, or a network failure) is passed to the functions that the
  source code performs an `axios.post` inside, and every embedded
  function additionally reports how many POSTs it issued and what it
  wrote to the server log, so that "never retries" and "detail stays in
  the log" are statable.
-/

/-! ## Byte strings -/

/-- All elements of a byte string are bytes. -/
def AllBytes (bs : List Nat) : Prop := ∀ b ∈ bs, b < 256

instance : DecidablePred AllBytes := fun bs =>
  inferInstanceAs (Decidable (∀ b ∈ bs, b < 256))

/-- The byte string of an ASCII Lean string literal (used to transcribe
the string literals of the source). -/
def strBytes (s : String) : List Nat := s.toList.map Char.toNat

/-! ## Base64 (Node `Buffer.prototype.toString('base64')`)

Standard RFC 4648 base64 with `=` padding, processing the byte string in
three-byte chunks, as `buffer.toString('base64')` produces it. -/

/-- The standard base64 alphabet, indexed position by position. -/
def stdChar (n : Nat) : Char :=
  "ABCDEFGHIJKLMNOPQRSTUVWXYZabcdefghijklmnopqrstuvwxyz0123456789+/".toList.getD n 'A'

/-- Standard padded base64 of a byte string (RFC 4648 §4), three input
bytes to four output characters, short final chunk padded with `=`. -/
def b64Std : List Nat → List Char
  | [] => []
  | [a] => [stdChar (a / 4), stdChar (a % 4 * 16), '=', '=']
  | [a, b] => [stdChar (a / 4), stdChar (a % 4 * 16 + b / 16), stdChar (b % 16 * 4), '=']
  | a :: b :: c :: rest =>
      stdChar (a / 4) :: stdChar (a % 4 * 16 + b / 16) ::
      stdChar (b % 16 * 4 + c / 64) :: stdChar (c % 64) :: b64Std rest

/-- Step `.replace(/\+/g, '-')` of `base64URLEncode`, applied character
by character. -/
def replPlus (c : Char) : Char := if c = '+' then '-' else c

/-- Step `.replace(/\//g, '_')` of `base64URLEncode`. -/
def replSlash (c : Char) : Char := if c = '/' then '_' else c

/-- Source `base64URLEncode(buffer)` from `config/oauth.js`:
`buffer.toString('base64').replace(/\+/g,'-').replace(/\//g,'_').replace(/=/g,'')`. -/
def base64URLEncode (buffer : List Nat) : List Char :=
  ((((b64Std buffer).map replPlus).map replSlash).filter (fun c => c ≠ '='))

/-- The URL-safe base64 alphabet (RFC 4648 §5). -/
def urlChar (n : Nat) : Char :=
  "ABCDEFGHIJKLMNOPQRSTUVWXYZabcdefghijklmnopqrstuvwxyz0123456789-_".toList.getD n 'A'

/-- Modelled from the spec: the unpadded URL-safe base64 encoding of a
byte string — the URL-safe alphabet used directly, no `=` emitted.  This
is the specification-side description ("URL-safe base64, `+`/`/` replaced
with `-`/`_`, padding `=` stripped") written as a direct encoder, to be
compared with the source's `base64URLEncode`. -/
def b64UrlNoPad : List Nat → List Char
  | [] => []
  | [a] => [urlChar (a / 4), urlChar (a % 4 * 16)]
  | [a, b] => [urlChar (a / 4), urlChar (a % 4 * 16 + b / 16), urlChar (b % 16 * 4)]
  | a :: b :: c :: rest =>
      urlChar (a / 4) :: urlChar (a % 4 * 16 + b / 16) ::
      urlChar (b % 16 * 4 + c / 64) :: urlChar (c % 64) :: b64UrlNoPad rest

/-- The result of mapping both source-code character replacements over a
standard-alphabet character. -/
def urlOf (n : Nat) : Char := replSlash (replPlus (stdChar n))

theorem urlOf_eq_urlChar : ∀ n < 64, urlOf n = urlChar n := by decide

theorem urlOf_ne_eq : ∀ n < 64, urlOf n ≠ '=' := by decide

theorem stdChar_ne_eq : ∀ n < 64, stdChar n ≠ '=' := by decide

/-! ## Expiry Evaluator (`isTokenExpired`, `config/oauth.js` lines 167-170)

`Date.now()` is passed in explicitly as `now`. -/

/-- Source `isTokenExpired(expiresAt, bufferSeconds = 300)`:
`expiresAt - (bufferSeconds * 1000) <= now`. -/
def isTokenExpired (expiresAt : Int) (bufferSeconds : Int) (now : Int) : Bool :=
  expiresAt - bufferSeconds * 1000 ≤ now

/-- The default value of the optional `bufferSeconds` parameter. -/
def defaultBufferSeconds : Int := 300

/-- C2: `isTokenExpired` returns true iff `expiresAt - bufferSeconds*1000 ≤ now`,
and with the default 300-second buffer a token 200 s from expiry is
reported expired while one 400 s from expiry is not. -/
theorem isTokenExpired_spec :
    (∀ expiresAt bufferSeconds now : Int,
      isTokenExpired expiresAt bufferSeconds now = true ↔
        expiresAt - bufferSeconds * 1000 ≤ now) ∧
    (∀ now : Int,
      isTokenExpired (now + 200000) defaultBufferSeconds now = true ∧
      isTokenExpired (now + 400000) defaultBufferSeconds now = false) := by
  refine ⟨fun e b n => ?_, fun now => ⟨?_, ?_⟩⟩
  · simp [isTokenExpired]
  · simp [isTokenExpired, defaultBufferSeconds]
  · simp [isTokenExpired, defaultBufferSeconds]

/-! ## SHA-256 (`crypto.createHash('sha256')`)

The full FIPS 180-4 algorithm on byte strings, with 32-bit words as `Nat`
reduced explicitly mod `2 ^ 32`. -/

/-- Reduce to a 32-bit word. -/
def w32 (n : Nat) : Nat := n % 4294967296

/-- The 32-bit rotate right. -/
def rotr32 (n x : Nat) : Nat := w32 ((x >>> n) ||| (x <<< (32 - n)))

/-- FIPS 180-4 `Ch(x,y,z)`. -/
def shaCh (x y z : Nat) : Nat := (x &&& y) ^^^ ((x ^^^ 4294967295) &&& z)

/-- FIPS 180-4 `Maj(x,y,z)`. -/
def shaMaj (x y z : Nat) : Nat := (x &&& y) ^^^ (x &&& z) ^^^ (y &&& z)

/-- FIPS 180-4 `Σ0`. -/
def bigSigma0 (x : Nat) : Nat := rotr32 2 x ^^^ rotr32 13 x ^^^ rotr32 22 x

/-- FIPS 180-4 `Σ1`. -/
def bigSigma1 (x : Nat) : Nat := rotr32 6 x ^^^ rotr32 11 x ^^^ rotr32 25 x

/-- FIPS 180-4 `σ0`. -/
def smallSigma0 (x : Nat) : Nat := rotr32 7 x ^^^ rotr32 18 x ^^^ (x >>> 3)

/-- FIPS 180-4 `σ1`. -/
def smallSigma1 (x : Nat) : Nat := rotr32 17 x ^^^ rotr32 19 x ^^^ (x >>> 10)

/-- The 64 SHA-256 round constants. -/
def shaK : List Nat :=
  [1116352408, 1899447441, 3049323471, 3921009573, 961987163,
   1508970993, 2453635748, 2870763221, 3624381080, 310598401,
   607225278, 1426881987, 1925078388, 2162078206, 2614888103,
   3248222580, 3835390401, 4022224774, 264347078, 604807628,
   770255983, 1249150122, 1555081692, 1996064986, 2554220882,
   2821834349, 2952996808, 3210313671, 3336571891, 3584528711,
   113926993, 338241895, 666307205, 773529912, 1294757372,
   1396182291, 1695183700, 1986661051, 2177026350, 2456956037,
   2730485921, 2820302411, 3259730800, 3345764771, 3516065817,
   3600352804, 4094571909, 275423344, 430227734, 506948616,
   659060556, 883997877, 958139571, 1322822218, 1537002063,
   1747873779, 1955562222, 2024104815, 2227730452, 2361852424,
   2428436474, 2756734187, 3204031479, 3329325298]

/-- The big-endian 8-byte encoding of the message bit length. -/
def beBytes8 (n : Nat) : List Nat :=
  [n / 72057594037927936 % 256, n / 281474976710656 % 256, n / 1099511627776 % 256,
   n / 4294967296 % 256, n / 16777216 % 256, n / 65536 % 256, n / 256 % 256, n % 256]

/-- SHA-256 message padding: append `0x80`, zeros to 56 mod 64, and the
64-bit big-endian bit length. -/
def shaPad (msg : List Nat) : List Nat :=
  msg ++ 128 :: (List.replicate ((64 - (msg.length + 9) % 64) % 64) 0 ++ beBytes8 (8 * msg.length))

/-- Split a byte string into 64-byte blocks. -/
def toBlocks (l : List Nat) : List (List Nat) :=
  if h : l = [] then [] else l.take 64 :: toBlocks (l.drop 64)
termination_by l.length
decreasing_by
  simp only [List.length_drop]
  have : 0 < l.length := List.length_pos.mpr h
  omega

/-- Assemble big-endian 32-bit words from bytes. -/
def toWords : List Nat → List Nat
  | b0 :: b1 :: b2 :: b3 :: rest => (b0 * 16777216 + b1 * 65536 + b2 * 256 + b3) :: toWords rest
  | _ => []

/-- One extension step of the SHA-256 message schedule. -/
def schedStep (w : List Nat) : List Nat :=
  w ++ [w32 (smallSigma1 (w.getD (w.length - 2) 0) + w.getD (w.length - 7) 0 +
             smallSigma0 (w.getD (w.length - 15) 0) + w.getD (w.length - 16) 0)]

/-- The 64-entry message schedule of one block. -/
def msgSchedule (w16 : List Nat) : List Nat :=
  (List.range 48).foldl (fun w _ => schedStep w) w16

/-- The eight 32-bit working variables / hash state. -/
structure Hash8 where
  a : Nat
  b : Nat
  c : Nat
  d : Nat
  e : Nat
  f : Nat
  g : Nat
  h : Nat
deriving Repr, DecidableEq

/-- One SHA-256 compression round. -/
def shaRound (s : Hash8) (wk : Nat × Nat) : Hash8 :=
  let t1 := w32 (s.h + bigSigma1 s.e + shaCh s.e s.f s.g + wk.2 + wk.1)
  let t2 := w32 (bigSigma0 s.a + shaMaj s.a s.b s.c)
  { a := w32 (t1 + t2), b := s.a, c := s.b, d := s.c,
    e := w32 (s.d + t1), f := s.e, g := s.f, h := s.g }

/-- Compress one 64-byte block into the hash state. -/
def compress (H : Hash8) (block : List Nat) : Hash8 :=
  let s := ((msgSchedule (toWords block)).zip shaK).foldl shaRound H
  { a := w32 (H.a + s.a), b := w32 (H.b + s.b), c := w32 (H.c + s.c), d := w32 (H.d + s.d),
    e := w32 (H.e + s.e), f := w32 (H.f + s.f), g := w32 (H.g + s.g), h := w32 (H.h + s.h) }

/-- The SHA-256 initial hash value. -/
def initH : Hash8 :=
  ⟨1779033703, 3144134277, 1013904242, 2773480762, 1359893119, 2600822924, 528734635, 1541459225⟩

/-- Big-endian bytes of one 32-bit word. -/
def wordBytes (w : Nat) : List Nat := [w / 16777216 % 256, w / 65536 % 256, w / 256 % 256, w % 256]

/-- Source `crypto.createHash('sha256').update(msg).digest()`: the 32-byte
SHA-256 digest of a byte string. -/
def sha256 (msg : List Nat) : List Nat :=
  let r := (toBlocks (shaPad msg)).foldl compress initH
  wordBytes r.a ++ wordBytes r.b ++ wordBytes r.c ++ wordBytes r.d ++
  wordBytes r.e ++ wordBytes r.f ++ wordBytes r.g ++ wordBytes r.h

/-! ## C1: the source encoder agrees with direct unpadded URL-safe base64 -/

theorem repl_stdChar_eq : ∀ n < 64, replSlash (replPlus (stdChar n)) = urlChar n := by decide

theorem urlChar_ne : ∀ n < 64, urlChar n ≠ '=' := by decide

theorem base64URLEncode_eq : ∀ bs : List Nat, AllBytes bs →
    base64URLEncode bs = b64UrlNoPad bs
  | [], _ => rfl
  | [a], hb => by
      have ha : a < 256 := hb a (by simp)
      have h1 : a / 4 < 64 := by omega
      have h2 : a % 4 * 16 < 64 := by omega
      simp only [base64URLEncode, b64Std, b64UrlNoPad, List.map_cons, List.map_nil,
        List.filter_cons, List.filter_nil]
      rw [repl_stdChar_eq _ h1, repl_stdChar_eq _ h2]
      simp [urlChar_ne _ h1, urlChar_ne _ h2, replPlus, replSlash]
  | [a, b], hb => by
      have ha : a < 256 := hb a (by simp)
      have hbb : b < 256 := hb b (by simp)
      have h1 : a / 4 < 64 := by omega
      have h2 : a % 4 * 16 + b / 16 < 64 := by omega
      have h3 : b % 16 * 4 < 64 := by omega
      simp only [base64URLEncode, b64Std, b64UrlNoPad, List.map_cons, List.map_nil,
        List.filter_cons, List.filter_nil]
      rw [repl_stdChar_eq _ h1, repl_stdChar_eq _ h2, repl_stdChar_eq _ h3]
      simp [urlChar_ne _ h1, urlChar_ne _ h2, urlChar_ne _ h3, replPlus, replSlash]
  | a :: b :: c :: rest, hb => by
      have ha : a < 256 := hb a (by simp)
      have hbb : b < 256 := hb b (by simp)
      have hc : c < 256 := hb c (by simp)
      have ih := base64URLEncode_eq rest (fun x hx => hb x (by simp [hx]))
      have h1 : a / 4 < 64 := by omega
      have h2 : a % 4 * 16 + b / 16 < 64 := by omega
      have h3 : b % 16 * 4 + c / 64 < 64 := by omega
      have h4 : c % 64 < 64 := by omega
      simp only [base64URLEncode] at ih
      simp only [base64URLEncode, b64Std, b64UrlNoPad, List.map_cons, List.filter_cons]
      rw [repl_stdChar_eq _ h1, repl_stdChar_eq _ h2, repl_stdChar_eq _ h3, repl_stdChar_eq _ h4]
      simp [urlChar_ne _ h1, urlChar_ne _ h2, urlChar_ne _ h3, urlChar_ne _ h4]
      simpa using ih

/-! ## PKCE Parameter Generator (`config/oauth.js` lines 27-48)

`crypto.randomBytes(32)` is modelled by passing the 32 random source
bytes in explicitly; the generators are otherwise pure. -/

/-- Source `generateCodeVerifier()`: `base64URLEncode(crypto.randomBytes(32))`. -/
def generateCodeVerifier (randomBytes : List Nat) : List Char := base64URLEncode randomBytes

/-- Source `generateState()`: `base64URLEncode(crypto.randomBytes(32))`. -/
def generateState (randomBytes : List Nat) : List Char := base64URLEncode randomBytes

/-- Source `generateCodeChallenge(verifier)`:
`base64URLEncode(crypto.createHash('sha256').update(verifier).digest())`.
The verifier string is represented by its byte sequence. -/
def generateCodeChallenge (verifier : List Nat) : List Char := base64URLEncode (sha256 verifier)

/-- Modelled from the spec: "Challenge = URL-safe-base64-encoded SHA-256
digest of the verifier", with the unpadded URL-safe encoding applied
directly to the digest. -/
def specCodeChallenge (verifier : List Nat) : List Char := b64UrlNoPad (sha256 verifier)

theorem wordBytes_lt (w : Nat) : ∀ b ∈ wordBytes w, b < 256 := by
  intro b hb
  simp [wordBytes] at hb
  rcases hb with h | h | h | h <;> omega

theorem sha256_allBytes (msg : List Nat) : AllBytes (sha256 msg) := by
  intro b hb
  simp only [sha256, List.mem_append] at hb
  rcases hb with ((((((h | h) | h) | h) | h) | h) | h) | h <;> exact wordBytes_lt _ _ h

theorem sha256_length (msg : List Nat) : (sha256 msg).length = 32 := by
  simp [sha256, wordBytes]

/-- C1: `generateCodeChallenge(v)` is exactly the unpadded URL-safe base64
encoding of the SHA-256 digest of the bytes of `v`, and it is
deterministic: evaluating it at any equal input yields the same string. -/
theorem generateCodeChallenge_spec (v : List Nat) :
    generateCodeChallenge v = specCodeChallenge v ∧
    ∀ w, w = v → generateCodeChallenge w = generateCodeChallenge v :=
  ⟨base64URLEncode_eq _ (sha256_allBytes v), fun _ hw => by rw [hw]⟩

/-- Witness for C1 at the concrete verifier "abc". -/
theorem generateCodeChallenge_spec_witness :
    generateCodeChallenge (strBytes "abc") = specCodeChallenge (strBytes "abc") ∧
    generateCodeChallenge (strBytes "abc") = generateCodeChallenge (strBytes "abc") :=
  ⟨(generateCodeChallenge_spec (strBytes "abc")).1,
   (generateCodeChallenge_spec (strBytes "abc")).2 (strBytes "abc") rfl⟩

/-! ## C9 / C10: alphabet and length of the generated strings -/

/-- A URL-safe base64 character: `[A-Za-z0-9_-]`. -/
def urlSafeChar (c : Char) : Bool := c.isAlphanum || c == '-' || c == '_'

theorem urlSafe_urlChar : ∀ n < 64, urlSafeChar (urlChar n) = true ∧ urlChar n ≠ '=' := by decide

theorem b64UrlNoPad_mem : ∀ bs : List Nat, AllBytes bs →
    ∀ c ∈ b64UrlNoPad bs, urlSafeChar c = true ∧ c ≠ '='
  | [], _, c, hc => by simp [b64UrlNoPad] at hc
  | [a], hb, c, hc => by
      have ha : a < 256 := hb a (by simp)
      simp [b64UrlNoPad] at hc
      rcases hc with h | h <;> subst h <;> exact urlSafe_urlChar _ (by omega)
  | [a, b], hb, c, hc => by
      have ha : a < 256 := hb a (by simp)
      have hbb : b < 256 := hb b (by simp)
      simp [b64UrlNoPad] at hc
      rcases hc with h | h | h <;> subst h <;> exact urlSafe_urlChar _ (by omega)
  | a :: b :: c0 :: rest, hb, c, hc => by
      have ha : a < 256 := hb a (by simp)
      have hbb : b < 256 := hb b (by simp)
      have hc0 : c0 < 256 := hb c0 (by simp)
      have ih := b64UrlNoPad_mem rest (fun x hx => hb x (by simp [hx]))
      simp only [b64UrlNoPad, List.mem_cons] at hc
      rcases hc with h | h | h | h | h
      · subst h; exact urlSafe_urlChar _ (by omega)
      · subst h; exact urlSafe_urlChar _ (by omega)
      · subst h; exact urlSafe_urlChar _ (by omega)
      · subst h; exact urlSafe_urlChar _ (by omega)
      · exact ih c h

/-- C9: for every 32-byte random source value, `generateCodeVerifier` and
`generateState` produce strings of URL-safe base64 characters
`[A-Za-z0-9_-]` only, with no `=` padding character. -/
theorem generate_urlsafe (rnd : List Nat) (hlen : rnd.length = 32) (hb : AllBytes rnd) :
    (∀ c ∈ generateCodeVerifier rnd, urlSafeChar c = true ∧ c ≠ '=') ∧
    (∀ c ∈ generateState rnd, urlSafeChar c = true ∧ c ≠ '=') := by
  constructor
  · intro c hc
    rw [generateCodeVerifier, base64URLEncode_eq rnd hb] at hc
    exact b64UrlNoPad_mem rnd hb c hc
  · intro c hc
    rw [generateState, base64URLEncode_eq rnd hb] at hc
    exact b64UrlNoPad_mem rnd hb c hc

/-- Witness for C9 at a concrete 32-byte random value. -/
theorem generate_urlsafe_witness :
    (∀ c ∈ generateCodeVerifier (List.replicate 32 7), urlSafeChar c = true ∧ c ≠ '=') ∧
    (∀ c ∈ generateState (List.replicate 32 7), urlSafeChar c = true ∧ c ≠ '=') :=
  generate_urlsafe (List.replicate 32 7) (by simp) (by decide)

theorem b64UrlNoPad_length : ∀ bs : List Nat, (b64UrlNoPad bs).length = (4 * bs.length + 2) / 3
  | [] => by simp [b64UrlNoPad]
  | [a] => by simp [b64UrlNoPad]
  | [a, b] => by simp [b64UrlNoPad]
  | a :: b :: c :: rest => by
      have ih := b64UrlNoPad_length rest
      simp [b64UrlNoPad, ih]
      omega

theorem b64Std_length : ∀ bs : List Nat, (b64Std bs).length = (bs.length + 2) / 3 * 4
  | [] => by simp [b64Std]
  | [a] => by simp [b64Std]
  | [a, b] => by simp [b64Std]
  | a :: b :: c :: rest => by
      have ih := b64Std_length rest
      simp [b64Std, ih]
      omega

theorem b64Std_count : ∀ bs : List Nat, AllBytes bs →
    (b64Std bs).count '=' = (3 - bs.length % 3) % 3
  | [], _ => by simp [b64Std]
  | [a], hb => by
      have ha : a < 256 := hb a (by simp)
      simp [b64Std, List.count_cons, stdChar_ne_eq _ (show a / 4 < 64 by omega),
        stdChar_ne_eq _ (show a % 4 * 16 < 64 by omega)]
  | [a, b], hb => by
      have ha : a < 256 := hb a (by simp)
      have hbb : b < 256 := hb b (by simp)
      simp [b64Std, List.count_cons, stdChar_ne_eq _ (show a / 4 < 64 by omega),
        stdChar_ne_eq _ (show a % 4 * 16 + b / 16 < 64 by omega),
        stdChar_ne_eq _ (show b % 16 * 4 < 64 by omega)]
  | a :: b :: c :: rest, hb => by
      have ha : a < 256 := hb a (by simp)
      have hbb : b < 256 := hb b (by simp)
      have hc : c < 256 := hb c (by simp)
      have ih := b64Std_count rest (fun x hx => hb x (by simp [hx]))
      simp [b64Std, List.count_cons, ih, stdChar_ne_eq _ (show a / 4 < 64 by omega),
        stdChar_ne_eq _ (show a % 4 * 16 + b / 16 < 64 by omega),
        stdChar_ne_eq _ (show b % 16 * 4 + c / 64 < 64 by omega),
        stdChar_ne_eq _ (show c % 64 < 64 by omega)]
      omega

/-- C10: for a 32-byte random value (and for the 32-byte SHA-256 digest of
any verifier), the standard base64 encoding has 44 characters of which
exactly one is the `=` pad, and stripping it leaves strings of length
exactly 43 from `generateCodeVerifier`, `generateState` and
`generateCodeChallenge`. -/
theorem generate_length (rnd v : List Nat) (hlen : rnd.length = 32) (hb : AllBytes rnd) :
    (generateCodeVerifier rnd).length = 43 ∧
    (generateState rnd).length = 43 ∧
    (generateCodeChallenge v).length = 43 ∧
    (b64Std rnd).length = 44 ∧
    (b64Std rnd).count '=' = 1 := by
  refine ⟨?_, ?_, ?_, ?_, ?_⟩
  · rw [generateCodeVerifier, base64URLEncode_eq rnd hb, b64UrlNoPad_length, hlen]
  · rw [generateState, base64URLEncode_eq rnd hb, b64UrlNoPad_length, hlen]
  · rw [generateCodeChallenge, base64URLEncode_eq _ (sha256_allBytes v),
      b64UrlNoPad_length, sha256_length]
  · rw [b64Std_length, hlen]
  · rw [b64Std_count rnd hb, hlen]

/-- Witness for C10 at a concrete 32-byte random value and verifier. -/
theorem generate_length_witness :
    (generateCodeVerifier (List.replicate 32 7)).length = 43 ∧
    (generateState (List.replicate 32 7)).length = 43 ∧
    (generateCodeChallenge (strBytes "abc")).length = 43 ∧
    (b64Std (List.replicate 32 7)).length = 44 ∧
    (b64Std (List.replicate 32 7)).count '=' = 1 :=
  generate_length (List.replicate 32 7) (strBytes "abc") (by simp) (by decide)

/-! ## `application/x-www-form-urlencoded` (`URLSearchParams`)

Byte-level model of the WHATWG urlencoded serializer used by
`new URLSearchParams(...).toString()`: bytes that are ASCII alphanumeric
or one of `*` `-` `.` `_` pass through, space becomes `+`, every other
byte becomes `%XX` with uppercase hex; pairs are rendered `key=value` and
joined with `&`. -/

/-- A byte the urlencoded serializer leaves unescaped. -/
def formSafe (b : Nat) : Bool :=
  (48 ≤ b && b ≤ 57) || (65 ≤ b && b ≤ 90) || (97 ≤ b && b ≤ 122) ||
  b == 42 || b == 45 || b == 46 || b == 95

/-- The (uppercase) hex digit byte of a nibble. -/
def hexDigit (n : Nat) : Nat := if n < 10 then 48 + n else 55 + n

/-- Serialization of one byte: space to `+` (43), safe bytes verbatim,
everything else `%XX` (37 = `%`). -/
def encodeByte (b : Nat) : List Nat :=
  if b = 32 then [43]
  else if formSafe b then [b]
  else [37, hexDigit (b / 16), hexDigit (b % 16)]

/-- Serialization of a byte string. -/
def encodeBytes : List Nat → List Nat
  | [] => []
  | b :: t => encodeByte b ++ encodeBytes t

/-- Value of a hex digit byte (upper- or lowercase accepted on parse). -/
def hexVal (b : Nat) : Nat :=
  if 48 ≤ b ∧ b ≤ 57 then b - 48
  else if 65 ≤ b ∧ b ≤ 70 then b - 55
  else if 97 ≤ b ∧ b ≤ 102 then b - 87
  else 0

/-- Urlencoded percent-decoding of a byte string: `+` back to space,
`%XX` back to the byte, all other bytes verbatim. -/
def decodeBytes (l : List Nat) : List Nat :=
  match l with
  | [] => []
  | b :: rest =>
      if b = 37 then
        match h : rest with
        | h1 :: h2 :: rest2 => (hexVal h1 * 16 + hexVal h2) :: decodeBytes rest2
        | _ => b :: decodeBytes rest
      else if b = 43 then 32 :: decodeBytes rest
      else b :: decodeBytes rest
termination_by l.length
decreasing_by all_goals simp_all [List.length_cons] <;> omega

theorem formSafe_ne (b : Nat) (h : formSafe b = true) : b ≠ 37 ∧ b ≠ 43 := by
  simp [formSafe] at h
  omega

theorem hexVal_hexDigit : ∀ n < 16, hexVal (hexDigit n) = n := by decide

theorem decodeBytes_nil : decodeBytes [] = [] := by
  rw [decodeBytes.eq_def]

theorem decodeBytes_pct (h1 h2 : Nat) (rest : List Nat) :
    decodeBytes (37 :: h1 :: h2 :: rest) = (hexVal h1 * 16 + hexVal h2) :: decodeBytes rest := by
  rw [decodeBytes.eq_def]
  rfl

theorem decodeBytes_cons (b : Nat) (rest : List Nat) (hb : b ≠ 37) :
    decodeBytes (b :: rest) =
      if b = 43 then 32 :: decodeBytes rest else b :: decodeBytes rest := by
  rw [decodeBytes.eq_def]
  simp [hb]

/-- Percent-decoding undoes the urlencoded serializer on byte strings. -/
theorem decodeBytes_encodeBytes (bs : List Nat) (hb : AllBytes bs) :
    decodeBytes (encodeBytes bs) = bs := by
  induction bs with
  | nil => simp [encodeBytes, decodeBytes_nil]
  | cons b t ih =>
    have hbt : AllBytes t := fun x hx => hb x (List.mem_cons_of_mem _ hx)
    have hb256 : b < 256 := hb b (List.mem_cons_self _ _)
    have ihr := ih hbt
    show decodeBytes (encodeByte b ++ encodeBytes t) = b :: t
    by_cases h32 : b = 32
    · subst h32
      rw [show encodeByte 32 = [43] from rfl, List.cons_append, List.nil_append,
        decodeBytes_cons 43 _ (by norm_num)]
      simp [ihr]
    · by_cases hsafe : formSafe b = true
      · have hne := formSafe_ne b hsafe
        rw [show encodeByte b = [b] by simp [encodeByte, h32, hsafe], List.cons_append,
          List.nil_append, decodeBytes_cons b _ hne.1]
        simp [hne.2, ihr]
      · rw [show encodeByte b = [37, hexDigit (b / 16), hexDigit (b % 16)] by
          simp [encodeByte, h32, hsafe], List.cons_append, List.cons_append, List.cons_append,
          List.nil_append, decodeBytes_pct]
        rw [hexVal_hexDigit _ (show b / 16 < 16 by omega),
          hexVal_hexDigit _ (show b % 16 < 16 by omega),
          show b / 16 * 16 + b % 16 = b by omega, ihr]

/-- Every byte the serializer emits: `+`, `%`, a hex digit, or a safe byte. -/
theorem mem_encodeBytes (bs : List Nat) (hb : AllBytes bs) :
    ∀ x ∈ encodeBytes bs, x = 43 ∨ x = 37 ∨ formSafe x = true ∨
      (48 ≤ x ∧ x ≤ 57) ∨ (65 ≤ x ∧ x ≤ 70) := by
  induction bs with
  | nil => simp [encodeBytes]
  | cons b t ih =>
    have hbt : AllBytes t := fun y hy => hb y (List.mem_cons_of_mem _ hy)
    have hb256 : b < 256 := hb b (List.mem_cons_self _ _)
    intro x hx
    simp only [encodeBytes, List.mem_append] at hx
    rcases hx with hx | hx
    · simp only [encodeByte] at hx
      split at hx
      · simp at hx; omega
      · split at hx
        · simp at hx; subst hx; right; right; left; assumption
        · simp only [List.mem_cons, List.not_mem_nil, or_false] at hx
          rcases hx with hx | hx | hx
          · omega
          · subst hx
            simp only [hexDigit]
            split <;> omega
          · subst hx
            simp only [hexDigit]
            split <;> omega
    · exact ih hbt x hx

theorem not_mem_encodeBytes_61 (bs : List Nat) (hb : AllBytes bs) :
    (61 : Nat) ∉ encodeBytes bs := by
  intro h
  rcases mem_encodeBytes bs hb 61 h with h | h | h | h | h <;> simp_all [formSafe]

theorem not_mem_encodeBytes_38 (bs : List Nat) (hb : AllBytes bs) :
    (38 : Nat) ∉ encodeBytes bs := by
  intro h
  rcases mem_encodeBytes bs hb 38 h with h | h | h | h | h <;> simp_all [formSafe]

/-- Split a byte string on a separator byte (the `&` and first-`=`
structure of a query string). -/
def splitOnByte (sep : Nat) : List Nat → List (List Nat)
  | [] => [[]]
  | b :: rest =>
      let r := splitOnByte sep rest
      if b = sep then [] :: r else (b :: r.headD []) :: r.tail

theorem splitOnByte_not_mem (sep : Nat) : ∀ l : List Nat, sep ∉ l → splitOnByte sep l = [l]
  | [], _ => rfl
  | b :: rest, h => by
      have hb : b ≠ sep := fun hb => h (hb ▸ List.mem_cons_self _ _)
      have ih := splitOnByte_not_mem sep rest (fun hm => h (List.mem_cons_of_mem _ hm))
      simp [splitOnByte, ih, hb]

theorem splitOnByte_append (sep : Nat) :
    ∀ l1 l2 : List Nat, sep ∉ l1 →
      splitOnByte sep (l1 ++ sep :: l2) = l1 :: splitOnByte sep l2
  | [], l2, _ => by simp [splitOnByte]
  | b :: rest, l2, h => by
      have hb : b ≠ sep := fun hb => h (hb ▸ List.mem_cons_self _ _)
      have ih := splitOnByte_append sep rest l2 (fun hm => h (List.mem_cons_of_mem _ hm))
      simp [splitOnByte, ih, hb]

/-- One serialized `key=value` pair (61 = `=`). -/
def encPair (p : List Nat × List Nat) : List Nat := encodeBytes p.1 ++ 61 :: encodeBytes p.2

/-- Source `URLSearchParams.prototype.toString()`: serialized pairs joined with
`&` (38). -/
def serializeParams : List (List Nat × List Nat) → List Nat
  | [] => []
  | [p] => encPair p
  | p :: q :: rest => encPair p ++ 38 :: serializeParams (q :: rest)

/-- Parse one `key=value` segment: split at the first `=`, percent-decode
both sides. -/
def parsePair (t : List Nat) : List Nat × List Nat :=
  (decodeBytes (t.takeWhile (fun b => b ≠ 61)),
   decodeBytes ((t.dropWhile (fun b => b ≠ 61)).drop 1))

/-- Parse a query string: split on `&`, parse each segment. -/
def parseQuery (q : List Nat) : List (List Nat × List Nat) :=
  (splitOnByte 38 q).map parsePair

theorem takeWhile_ne_append (x : Nat) :
    ∀ l1 l2 : List Nat, x ∉ l1 →
      (l1 ++ x :: l2).takeWhile (fun b => b ≠ x) = l1
  | [], l2, _ => by simp [List.takeWhile]
  | b :: rest, l2, h => by
      have hb : b ≠ x := fun hb => h (hb ▸ List.mem_cons_self _ _)
      have ih := takeWhile_ne_append x rest l2 (fun hm => h (List.mem_cons_of_mem _ hm))
      simp only [ne_eq, decide_not] at ih
      simp [List.takeWhile, hb, ih]

theorem dropWhile_ne_append (x : Nat) :
    ∀ l1 l2 : List Nat, x ∉ l1 →
      (l1 ++ x :: l2).dropWhile (fun b => b ≠ x) = x :: l2
  | [], l2, _ => by simp [List.dropWhile]
  | b :: rest, l2, h => by
      have hb : b ≠ x := fun hb => h (hb ▸ List.mem_cons_self _ _)
      have ih := dropWhile_ne_append x rest l2 (fun hm => h (List.mem_cons_of_mem _ hm))
      simp only [ne_eq, decide_not] at ih
      simp [List.dropWhile, hb, ih]

/-- Parsing one serialized pair recovers it. -/
theorem parsePair_encPair (p : List Nat × List Nat)
    (h1 : AllBytes p.1) (h2 : AllBytes p.2) : parsePair (encPair p) = p := by
  have hk := not_mem_encodeBytes_61 p.1 h1
  rw [parsePair, encPair, takeWhile_ne_append 61 _ _ hk, dropWhile_ne_append 61 _ _ hk]
  simp [decodeBytes_encodeBytes p.1 h1, decodeBytes_encodeBytes p.2 h2]

theorem not_mem_encPair_38 (p : List Nat × List Nat)
    (h1 : AllBytes p.1) (h2 : AllBytes p.2) : (38 : Nat) ∉ encPair p := by
  rw [encPair]
  intro h
  rcases List.mem_append.mp h with h | h
  · exact not_mem_encodeBytes_38 p.1 h1 h
  · rcases List.mem_cons.mp h with h | h
    · omega
    · exact not_mem_encodeBytes_38 p.2 h2 h

/-- Parsing a serialized nonempty parameter list recovers it exactly. -/
theorem parseQuery_serializeParams :
    ∀ ps : List (List Nat × List Nat),
      (∀ p ∈ ps, AllBytes p.1 ∧ AllBytes p.2) → ps ≠ [] →
      parseQuery (serializeParams ps) = ps
  | [], _, hne => absurd rfl hne
  | [p], hb, _ => by
      have hp := hb p (List.mem_cons_self _ _)
      rw [serializeParams, parseQuery,
        splitOnByte_not_mem 38 _ (not_mem_encPair_38 p hp.1 hp.2)]
      simp [parsePair_encPair p hp.1 hp.2]
  | p :: q :: rest, hb, _ => by
      have hp := hb p (List.mem_cons_self _ _)
      have ih := parseQuery_serializeParams (q :: rest)
        (fun x hx => hb x (List.mem_cons_of_mem _ hx)) (by simp)
      rw [serializeParams, parseQuery,
        splitOnByte_append 38 _ _ (not_mem_encPair_38 p hp.1 hp.2)]
      rw [parseQuery] at ih
      simp [parsePair_encPair p hp.1 hp.2, ih]

/-! ## Authorization URL Builder (`config/oauth.js` lines 9-21 and 71-85) -/

/-- Constant `OAUTH_CONFIG.authorizationUrl`. -/
def oauthAuthorizationUrl : List Nat := strBytes "https://auth.atlassian.com/authorize"

/-- Constant `OAUTH_CONFIG.audience`. -/
def oauthAudience : List Nat := strBytes "api.atlassian.com"

/-- Constant `OAUTH_CONFIG.scopes`: the fixed scope list joined by spaces. -/
def oauthScopes : List Nat :=
  strBytes (String.intercalate " "
    ["read:jira-work", "read:jira-user", "write:jira-work", "offline_access"])

/-- The ordered parameter set `buildAuthorizationUrl` serializes. -/
def authParams (clientId redirectUri state codeChallenge : List Nat) :
    List (List Nat × List Nat) :=
  [(strBytes "audience", oauthAudience),
   (strBytes "client_id", clientId),
   (strBytes "scope", oauthScopes),
   (strBytes "redirect_uri", redirectUri),
   (strBytes "response_type", strBytes "code"),
   (strBytes "state", state),
   (strBytes "code_challenge", codeChallenge),
   (strBytes "code_challenge_method", strBytes "S256"),
   (strBytes "prompt", strBytes "consent")]

/-- Source `buildAuthorizationUrl(clientId, redirectUri, state, codeChallenge)`:
the authorization endpoint, `?` (63), and the serialized parameters. -/
def buildAuthorizationUrl (clientId redirectUri state codeChallenge : List Nat) : List Nat :=
  oauthAuthorizationUrl ++ 63 ::
    serializeParams (authParams clientId redirectUri state codeChallenge)

/-- The query-string part of a URL: everything after the first `?`. -/
def queryOf (url : List Nat) : List Nat :=
  ((url.dropWhile (fun b => b ≠ 63)).drop 1)

/-- C3: parsing the query string of `buildAuthorizationUrl` recovers
exactly the fixed parameter set — `audience=api.atlassian.com`, the given
`client_id`, the fixed space-joined scope list, the given `redirect_uri`,
`response_type=code`, the given `state` and `code_challenge`,
`code_challenge_method=S256`, `prompt=consent` — so the serialization
round-trips to the exact inputs. -/
theorem buildAuthorizationUrl_roundtrip
    (clientId redirectUri state codeChallenge : List Nat)
    (h1 : AllBytes clientId) (h2 : AllBytes redirectUri)
    (h3 : AllBytes state) (h4 : AllBytes codeChallenge) :
    parseQuery (queryOf (buildAuthorizationUrl clientId redirectUri state codeChallenge)) =
      [(strBytes "audience", strBytes "api.atlassian.com"),
       (strBytes "client_id", clientId),
       (strBytes "scope", oauthScopes),
       (strBytes "redirect_uri", redirectUri),
       (strBytes "response_type", strBytes "code"),
       (strBytes "state", state),
       (strBytes "code_challenge", codeChallenge),
       (strBytes "code_challenge_method", strBytes "S256"),
       (strBytes "prompt", strBytes "consent")] := by
  have hq : queryOf (buildAuthorizationUrl clientId redirectUri state codeChallenge) =
      serializeParams (authParams clientId redirectUri state codeChallenge) := by
    rw [queryOf, buildAuthorizationUrl,
      dropWhile_ne_append 63 _ _ (by decide), List.drop_one, List.tail_cons]
  rw [hq, parseQuery_serializeParams _ ?_ (by simp [authParams])]
  · rfl
  · intro p hp
    simp only [authParams, List.mem_cons, List.not_mem_nil, or_false] at hp
    rcases hp with h | h | h | h | h | h | h | h | h <;> subst h <;> dsimp only <;>
      constructor <;> first | assumption | decide

/-- Witness for C3 at concrete parameter values. -/
theorem buildAuthorizationUrl_roundtrip_witness :
    parseQuery (queryOf (buildAuthorizationUrl (strBytes "client-1")
        (strBytes "http://localhost:3000/auth/callback") (strBytes "st_1") (strBytes "ch_1"))) =
      [(strBytes "audience", strBytes "api.atlassian.com"),
       (strBytes "client_id", strBytes "client-1"),
       (strBytes "scope", oauthScopes),
       (strBytes "redirect_uri", strBytes "http://localhost:3000/auth/callback"),
       (strBytes "response_type", strBytes "code"),
       (strBytes "state", strBytes "st_1"),
       (strBytes "code_challenge", strBytes "ch_1"),
       (strBytes "code_challenge_method", strBytes "S256"),
       (strBytes "prompt", strBytes "consent")] :=
  buildAuthorizationUrl_roundtrip _ _ _ _ (by decide) (by decide) (by decide) (by decide)

/-! ## Token Exchanger / Token Refresher (`config/oauth.js` lines 96-159)

The single `axios.post` each function performs is modelled by passing in
the provider's behaviour for that POST; each embedded function reports,
besides its return/throw outcome, the `console.error` log entries it
wrote and the number of POSTs it issued. -/

/-- The provider token payload shape the code reads
(`access_token`, `refresh_token?`, `expires_in`, `scope`). -/
structure TokenPayload where
  access_token : String
  refresh_token : Option String
  expires_in : Int
  scope : String
deriving DecidableEq, Repr

/-- An HTTP response from the token endpoint. -/
structure AxiosResponse where
  status : Nat
  data : TokenPayload
deriving DecidableEq, Repr

/-- The provider token endpoint's behaviour for one POST. -/
inductive ProviderBehavior where
  | respond (r : AxiosResponse)
  | networkFail (message : String)
deriving DecidableEq, Repr

/-- Outcome of `axios.post`: resolves on 2xx (default `validateStatus`),
rejects with `error.response` set on other statuses, rejects with only a
message on network failure. -/
inductive AxiosResult where
  | ok (r : AxiosResponse)
  | error (response : Option AxiosResponse) (message : String)
deriving DecidableEq, Repr

/-- One `axios.post` against the provider. -/
def axiosPost (b : ProviderBehavior) : AxiosResult :=
  match b with
  | .respond r =>
      if 200 ≤ r.status ∧ r.status < 300 then .ok r
      else .error (some r) ("Request failed with status code " ++ toString r.status)
  | .networkFail m => .error none m

/-- What `console.error` receives as `error.response?.data || error.message`:
the parsed response body if a response arrived (an object, hence truthy),
else the error message. -/
inductive LogDetail where
  | body (d : TokenPayload)
  | message (m : String)
deriving DecidableEq, Repr

/-- Observable outcome of one embedded token call: the JS return value or
thrown `Error` message, the server-side log, and the number of POSTs
issued. -/
structure TokenCallResult where
  result : Except String TokenPayload
  log : List (String × LogDetail)
  posts : Nat
deriving Repr

/-- Source `exchangeCodeForToken(...)`: one POST; on resolve return
`response.data`; on reject log `'Token exchange error:'` with the
response data (or message) and throw
`Error('Failed to exchange authorization code for token')`. -/
def exchangeCodeForToken (b : ProviderBehavior) : TokenCallResult :=
  match axiosPost b with
  | .ok r => { result := .ok r.data, log := [], posts := 1 }
  | .error resp msg =>
      { result := .error "Failed to exchange authorization code for token",
        log := [("Token exchange error:",
          match resp with
          | some r => .body r.data
          | none => .message msg)],
        posts := 1 }

/-- Source `refreshAccessToken(...)`: same shape, with log prefix
`'Token refresh error:'` and thrown message
`'Failed to refresh access token'`. -/
def refreshAccessToken (b : ProviderBehavior) : TokenCallResult :=
  match axiosPost b with
  | .ok r => { result := .ok r.data, log := [], posts := 1 }
  | .error resp msg =>
      { result := .error "Failed to refresh access token",
        log := [("Token refresh error:",
          match resp with
          | some r => .body r.data
          | none => .message msg)],
        posts := 1 }

/-- A provider behaviour that makes the POST reject: non-2xx status or
network failure. -/
def isProviderFailure (b : ProviderBehavior) : Bool :=
  match b with
  | .respond r => !(decide (200 ≤ r.status) && decide (r.status < 300))
  | .networkFail _ => true

/-- Counterexample to C5 as stated: two failure responses with different
statuses and different bodies produce the *same* raised error value — the
fixed generic string — so the `TokenExchangeError` that crosses to the
caller does not carry the downstream status/body (those go to the log
only). -/
theorem exchangeCodeForToken_error_generic_cex :
    (exchangeCodeForToken (.respond ⟨400, ⟨"a", none, 0, "sa"⟩⟩)).result =
      (exchangeCodeForToken (.respond ⟨500, ⟨"b", none, 1, "sb"⟩⟩)).result ∧
    (400 : Nat) ≠ 500 ∧
    (⟨"a", none, 0, "sa"⟩ : TokenPayload) ≠ ⟨"b", none, 1, "sb"⟩ ∧
    (exchangeCodeForToken (.respond ⟨400, ⟨"a", none, 0, "sa"⟩⟩)).result =
      .error "Failed to exchange authorization code for token" := by
  refine ⟨rfl, by decide, by decide, rfl⟩

/-- C5 (amended): `exchangeCodeForToken` issues exactly one POST on every
behaviour (never retries); on a non-2xx response it throws the fixed
`TokenExchangeError` message and logs the downstream response body; on
network failure it throws the same fixed message and logs the error
message; on a 2xx response it returns the raw provider payload. -/
theorem exchangeCodeForToken_contract (b : ProviderBehavior) :
    (exchangeCodeForToken b).posts = 1 ∧
    (∀ r, b = .respond r → 200 ≤ r.status → r.status < 300 →
      (exchangeCodeForToken b).result = .ok r.data ∧ (exchangeCodeForToken b).log = []) ∧
    (∀ r, b = .respond r → ¬(200 ≤ r.status ∧ r.status < 300) →
      (exchangeCodeForToken b).result = .error "Failed to exchange authorization code for token" ∧
      (exchangeCodeForToken b).log = [("Token exchange error:", .body r.data)]) ∧
    (∀ m, b = .networkFail m →
      (exchangeCodeForToken b).result = .error "Failed to exchange authorization code for token" ∧
      (exchangeCodeForToken b).log = [("Token exchange error:", .message m)]) := by
  refine ⟨?_, ?_, ?_, ?_⟩
  · cases b with
    | respond r => simp only [exchangeCodeForToken, axiosPost]; split <;> rfl
    | networkFail m => rfl
  · rintro r rfl h1 h2
    simp [exchangeCodeForToken, axiosPost, h1, h2]
  · rintro r rfl h
    simp [exchangeCodeForToken, axiosPost, h]
  · rintro m rfl
    simp [exchangeCodeForToken, axiosPost]

/-- Witness for the amended C5 at concrete behaviours. -/
theorem exchangeCodeForToken_contract_witness :
    (exchangeCodeForToken (.networkFail "socket hang up")).posts = 1 ∧
    (exchangeCodeForToken (.networkFail "socket hang up")).result =
      .error "Failed to exchange authorization code for token" ∧
    (exchangeCodeForToken (.respond ⟨200, ⟨"tok", some "r", 3600, "sc"⟩⟩)).result =
      .ok ⟨"tok", some "r", 3600, "sc"⟩ :=
  ⟨(exchangeCodeForToken_contract (.networkFail "socket hang up")).1,
   ((exchangeCodeForToken_contract (.networkFail "socket hang up")).2.2.2
     "socket hang up" rfl).1,
   ((exchangeCodeForToken_contract (.respond ⟨200, ⟨"tok", some "r", 3600, "sc"⟩⟩)).2.1
     ⟨200, ⟨"tok", some "r", 3600, "sc"⟩⟩ rfl (by decide) (by decide)).1⟩

/-- C6: on any failing behaviours, the exchanger throws
`'Failed to exchange authorization code for token'` and the refresher
throws `'Failed to refresh access token'` — two distinguishable error
kinds, not one value. -/
theorem refresh_exchange_distinct_errors (b1 b2 : ProviderBehavior)
    (h1 : isProviderFailure b1 = true) (h2 : isProviderFailure b2 = true) :
    (exchangeCodeForToken b1).result = .error "Failed to exchange authorization code for token" ∧
    (refreshAccessToken b2).result = .error "Failed to refresh access token" ∧
    (exchangeCodeForToken b1).result ≠ (refreshAccessToken b2).result := by
  have he : (exchangeCodeForToken b1).result =
      .error "Failed to exchange authorization code for token" := by
    cases b1 with
    | respond r =>
      simp [isProviderFailure] at h1
      have hcond : ¬(200 ≤ r.status ∧ r.status < 300) := by omega
      simp [exchangeCodeForToken, axiosPost, hcond]
    | networkFail m => rfl
  have hr : (refreshAccessToken b2).result = .error "Failed to refresh access token" := by
    cases b2 with
    | respond r =>
      simp [isProviderFailure] at h2
      have hcond : ¬(200 ≤ r.status ∧ r.status < 300) := by omega
      simp [refreshAccessToken, axiosPost, hcond]
    | networkFail m => rfl
  refine ⟨he, hr, ?_⟩
  rw [he, hr]
  simp

/-- Witness for C6 at concrete failing behaviours. -/
theorem refresh_exchange_distinct_errors_witness :
    (exchangeCodeForToken (.respond ⟨401, ⟨"", none, 0, ""⟩⟩)).result =
      .error "Failed to exchange authorization code for token" ∧
    (refreshAccessToken (.networkFail "timeout")).result =
      .error "Failed to refresh access token" ∧
    (exchangeCodeForToken (.respond ⟨401, ⟨"", none, 0, ""⟩⟩)).result ≠
      (refreshAccessToken (.networkFail "timeout")).result :=
  refresh_exchange_distinct_errors _ _ (by decide) (by decide)

/-- C8: two-run noninterference of the raised error value — for any two
provider failures (any statuses/bodies), `exchangeCodeForToken` raises
the identical fixed generic string, and so does `refreshAccessToken`;
the provider-dependent detail goes only to the server-side log. -/
theorem token_errors_noninterference (b1 b2 : ProviderBehavior)
    (h1 : isProviderFailure b1 = true) (h2 : isProviderFailure b2 = true) :
    (exchangeCodeForToken b1).result = (exchangeCodeForToken b2).result ∧
    (refreshAccessToken b1).result = (refreshAccessToken b2).result ∧
    (exchangeCodeForToken b1).result =
      .error "Failed to exchange authorization code for token" ∧
    (refreshAccessToken b1).result = .error "Failed to refresh access token" := by
  have key : ∀ b, isProviderFailure b = true →
      (exchangeCodeForToken b).result =
        .error "Failed to exchange authorization code for token" ∧
      (refreshAccessToken b).result = .error "Failed to refresh access token" := by
    intro b hb
    cases b with
    | respond r =>
      simp [isProviderFailure] at hb
      have hcond : ¬(200 ≤ r.status ∧ r.status < 300) := by omega
      constructor
      · simp [exchangeCodeForToken, axiosPost, hcond]
      · simp [refreshAccessToken, axiosPost, hcond]
    | networkFail m => exact ⟨rfl, rfl⟩
  have k1 := key b1 h1
  have k2 := key b2 h2
  exact ⟨k1.1.trans k2.1.symm, k1.2.trans k2.2.symm, k1.1, k1.2⟩

/-- Witness for C8 at two concrete distinct failures. -/
theorem token_errors_noninterference_witness :
    (exchangeCodeForToken (.respond ⟨400, ⟨"x", none, 7, "s1"⟩⟩)).result =
      (exchangeCodeForToken (.networkFail "ECONNRESET")).result ∧
    (refreshAccessToken (.respond ⟨400, ⟨"x", none, 7, "s1"⟩⟩)).result =
      (refreshAccessToken (.networkFail "ECONNRESET")).result ∧
    (exchangeCodeForToken (.respond ⟨400, ⟨"x", none, 7, "s1"⟩⟩)).result =
      .error "Failed to exchange authorization code for token" ∧
    (refreshAccessToken (.respond ⟨400, ⟨"x", none, 7, "s1"⟩⟩)).result =
      .error "Failed to refresh access token" :=
  token_errors_noninterference _ _ (by decide) (by decide)

/-! ## `encodeURIComponent` -/

/-- Characters `encodeURIComponent` leaves unescaped:
alphanumeric and `- _ . ! ~ * ' ( )`. -/
def uriUnreserved (c : Char) : Bool :=
  c.isAlphanum || c == '-' || c == '_' || c == '.' || c == '!' || c == '~' || c == '*' ||
  c == Char.ofNat 39 || c == '(' || c == ')'

/-- UTF-8 bytes of a code point. -/
def utf8Bytes (n : Nat) : List Nat :=
  if n < 128 then [n]
  else if n < 2048 then [192 + n / 64, 128 + n % 64]
  else if n < 65536 then [224 + n / 4096, 128 + n / 64 % 64, 128 + n % 64]
  else [240 + n / 262144, 128 + n / 4096 % 64, 128 + n / 64 % 64, 128 + n % 64]

/-- Uppercase hex digit character of a nibble. -/
def hexCharU (n : Nat) : Char := if n < 10 then Char.ofNat (48 + n) else Char.ofNat (55 + n)

/-- The `%XX` escape of one byte. -/
def pctEnc (b : Nat) : List Char := ['%', hexCharU (b / 16), hexCharU (b % 16)]

/-- Source `encodeURIComponent(s)`: unreserved characters verbatim, all others
percent-escaped byte by byte of their UTF-8 encoding. -/
def encodeURIComponent (s : String) : String :=
  String.mk ((s.toList.map fun c =>
    if uriUnreserved c then [c] else ((utf8Bytes c.toNat).map pctEnc).flatten).flatten)

/-! ## Authorization Workflow Controller — callback transition
(`server.js`, reproduced in full in `TESTING.md`, `GET /auth/callback`) -/

/-- The in-flight PKCE record `req.session.oauth`. -/
structure OAuthRecord where
  codeVerifier : String
  state : String
  timestamp : Int
deriving DecidableEq, Repr

/-- The stored token record `req.session.tokens`. -/
structure StoredTokens where
  access_token : String
  refresh_token : Option String
  expires_in : Int
  expires_at : Int
  scope : String
deriving DecidableEq, Repr

/-- A browser session's auth-relevant state. -/
structure Session where
  oauth : Option OAuthRecord
  tokens : Option StoredTokens
deriving DecidableEq, Repr

/-- The query parameters of a callback request
(`code`, `state`, `error`, `error_description`). -/
structure CallbackQuery where
  code : Option String
  state : Option String
  error : Option String
  error_description : Option String
deriving DecidableEq, Repr

/-- JS truthiness of an optional string: `undefined` and `""` are falsy. -/
def jsTruthy : Option String → Bool
  | none => false
  | some s => !s.isEmpty

/-- Observable outcome of the callback transition: the session afterwards,
the redirect target, and how many times the Token Exchanger ran. -/
structure CallbackOutcome where
  session : Session
  redirect : String
  exchangeCalls : Nat
deriving DecidableEq, Repr

/-- Route `GET /auth/callback`: check the provider `error` parameter, require
`code` and `state`, validate the stored PKCE state, enforce the 5-minute
window, then exchange the code and store the token record (computing
`expires_at := Date.now() + expires_in * 1000`) and delete the PKCE
record; on exchange failure redirect with the generic encoded
`Authentication failed`. -/
def authCallback (q : CallbackQuery) (sess : Session) (now : Int)
    (b : ProviderBehavior) : CallbackOutcome :=
  if jsTruthy q.error then
    { session := sess,
      redirect := "/?error=" ++ encodeURIComponent
        (if jsTruthy q.error_description then q.error_description.getD ""
         else q.error.getD ""),
      exchangeCalls := 0 }
  else if !jsTruthy q.code || !jsTruthy q.state then
    { session := sess, redirect := "/?error=Missing authorization code or state",
      exchangeCalls := 0 }
  else
    match sess.oauth with
    | none =>
        { session := sess, redirect := "/?error=Invalid state parameter", exchangeCalls := 0 }
    | some o =>
        if o.state ≠ q.state.getD "" then
          { session := sess, redirect := "/?error=Invalid state parameter", exchangeCalls := 0 }
        else if now - o.timestamp > 5 * 60 * 1000 then
          { session := sess, redirect := "/?error=OAuth session expired", exchangeCalls := 0 }
        else
          let r := exchangeCodeForToken b
          match r.result with
          | .ok tokens =>
              { session :=
                  { oauth := none,
                    tokens := some
                      { access_token := tokens.access_token,
                        refresh_token := tokens.refresh_token,
                        expires_in := tokens.expires_in,
                        expires_at := now + tokens.expires_in * 1000,
                        scope := tokens.scope } },
                redirect := "/dashboard.html",
                exchangeCalls := r.posts }
          | .error _ =>
              { session := sess,
                redirect := "/?error=" ++ encodeURIComponent "Authentication failed",
                exchangeCalls := r.posts }

/-- Substring test on character lists. -/
def hasSub (needle : List Char) : List Char → Bool
  | [] => needle.isEmpty
  | c :: rest => needle.isPrefixOf (c :: rest) || hasSub needle rest

/-- Substring test on strings. -/
def strContainsSub (needle s : String) : Bool := hasSub needle.toList s.toList

/-- A present, non-empty string parameter is truthy. -/
theorem jsTruthy_some_ne (s : String) (h : s ≠ "") : jsTruthy (some s) = true := by
  simp only [jsTruthy, Bool.not_eq_true']
  cases hh : s.isEmpty
  · rfl
  · exact absurd ((String.isEmpty_iff s).mp hh) h

/-- Counterexample to C4 as stated: a callback whose supplied `state`
differs from the stored PKCE state but which also carries a provider
`error` parameter redirects with the provider's error, not with
`error=Invalid state parameter` (the error check runs first). -/
theorem callback_state_mismatch_cex :
    ¬ (∀ (q : CallbackQuery) (sess : Session) (now : Int) (b : ProviderBehavior)
         (o : OAuthRecord) (s : String),
        sess.oauth = some o → q.state = some s → s ≠ o.state →
        strContainsSub "error=Invalid state parameter"
            (authCallback q sess now b).redirect = true ∧
        (authCallback q sess now b).exchangeCalls = 0) := by
  intro h
  have hinst := h ⟨some "c0", some "stA", some "access_denied", none⟩
    ⟨some ⟨"v", "stB", 0⟩, none⟩ 0 (.networkFail "n") ⟨"v", "stB", 0⟩ "stA"
    rfl rfl (by decide)
  have hfalse : strContainsSub "error=Invalid state parameter"
      (authCallback ⟨some "c0", some "stA", some "access_denied", none⟩
        ⟨some ⟨"v", "stB", 0⟩, none⟩ 0 (.networkFail "n")).redirect = false := by decide
  rw [hinst.1] at hfalse
  exact Bool.noConfusion hfalse

/-- C4 (amended): whenever the supplied `state` differs from the state in
the stored PKCE record, the Token Exchanger is never invoked; if
additionally the request carries no provider `error` parameter and a
truthy `code`, and the supplied state is non-empty, the redirect is
exactly `/?error=Invalid state parameter`. -/
theorem callback_state_mismatch (q : CallbackQuery) (sess : Session) (now : Int)
    (b : ProviderBehavior) (o : OAuthRecord) (s : String)
    (ho : sess.oauth = some o) (hs : q.state = some s) (hne : s ≠ o.state) :
    (authCallback q sess now b).exchangeCalls = 0 ∧
    (jsTruthy q.error = false → jsTruthy q.code = true → s ≠ "" →
      (authCallback q sess now b).redirect = "/?error=Invalid state parameter") := by
  by_cases herr : jsTruthy q.error
  · refine ⟨by simp [authCallback, herr], fun hfe => ?_⟩
    rw [herr] at hfe
    exact absurd hfe (by simp)
  · have hos : o.state ≠ q.state.getD "" := by
      rw [hs]
      simp only [Option.getD_some]
      exact fun hcontra => hne hcontra.symm
    by_cases hcs : (!jsTruthy q.code || !jsTruthy q.state) = true
    · refine ⟨by simp [authCallback, herr, hcs], fun _ hcode hsne => ?_⟩
      exfalso
      have hstate : jsTruthy q.state = true := by
        rw [hs]
        exact jsTruthy_some_ne s hsne
      rw [hcode, hstate] at hcs
      simp at hcs
    · constructor
      · simp [authCallback, herr, hcs, ho, hos]
      · intro _ _ _
        simp [authCallback, herr, hcs, ho, hos]

/-- Witness for the amended C4 at a concrete mismatched callback. -/
theorem callback_state_mismatch_witness :
    (authCallback ⟨some "c0", some "stA", none, none⟩
        ⟨some ⟨"v", "stB", 0⟩, none⟩ 0 (.networkFail "n")).exchangeCalls = 0 ∧
    (authCallback ⟨some "c0", some "stA", none, none⟩
        ⟨some ⟨"v", "stB", 0⟩, none⟩ 0 (.networkFail "n")).redirect =
      "/?error=Invalid state parameter" :=
  ⟨(callback_state_mismatch _ _ 0 _ ⟨"v", "stB", 0⟩ "stA" rfl rfl (by decide)).1,
   (callback_state_mismatch _ _ 0 _ ⟨"v", "stB", 0⟩ "stA" rfl rfl (by decide)).2
     (by decide) (by decide) (by decide)⟩

/-- C7: on a fully valid callback (no provider error, truthy `code` and
`state`, matching stored state, within the 5-minute window) answered by
the provider with a 2xx payload, the stored token record's `expires_at`
is exactly `now + expires_in * 1000` — derived from the token response at
receipt time, independent of every client-supplied query value — and the
PKCE record is deleted from the session. -/
theorem callback_success (q : CallbackQuery) (sess : Session) (now : Int)
    (o : OAuthRecord) (c s : String) (r : AxiosResponse)
    (ho : sess.oauth = some o) (hc : q.code = some c) (hcne : c ≠ "")
    (hs : q.state = some s) (hsne : s ≠ "") (hmatch : o.state = s)
    (herr : q.error = none) (hage : now - o.timestamp ≤ 5 * 60 * 1000)
    (hok : 200 ≤ r.status) (hok2 : r.status < 300) :
    (authCallback q sess now (.respond r)).session.tokens =
      some { access_token := r.data.access_token,
             refresh_token := r.data.refresh_token,
             expires_in := r.data.expires_in,
             expires_at := now + r.data.expires_in * 1000,
             scope := r.data.scope } ∧
    (authCallback q sess now (.respond r)).session.oauth = none ∧
    (authCallback q sess now (.respond r)).redirect = "/dashboard.html" := by
  have herr2 : jsTruthy q.error = false := by rw [herr]; rfl
  have hcode : jsTruthy q.code = true := by
    rw [hc]
    exact jsTruthy_some_ne c hcne
  have hstate : jsTruthy q.state = true := by
    rw [hs]
    exact jsTruthy_some_ne s hsne
  have hos : ¬ (o.state ≠ q.state.getD "") := by
    rw [hs]
    simp [hmatch]
  have hage2 : ¬ (300000 < now - o.timestamp) := by omega
  have hex : exchangeCodeForToken (.respond r) =
      { result := .ok r.data, log := [], posts := 1 } := by
    simp [exchangeCodeForToken, axiosPost, hok, hok2]
  refine ⟨?_, ?_, ?_⟩ <;>
    simp [authCallback, herr2, hcode, hstate, ho, hos, hage2, hex]

/-- Witness for C7: concrete valid callback with a 3600-second payload at
`now = 1000` stores `expires_at = 3601000` and drops the PKCE record. -/
theorem callback_success_witness :
    (authCallback ⟨some "c0", some "stB", none, none⟩ ⟨some ⟨"v", "stB", 0⟩, none⟩ 1000
        (.respond ⟨200, ⟨"a1", some "r1", 3600, "sc"⟩⟩)).session.tokens =
      some { access_token := "a1", refresh_token := some "r1", expires_in := 3600,
             expires_at := 1000 + 3600 * 1000, scope := "sc" } ∧
    (authCallback ⟨some "c0", some "stB", none, none⟩ ⟨some ⟨"v", "stB", 0⟩, none⟩ 1000
        (.respond ⟨200, ⟨"a1", some "r1", 3600, "sc"⟩⟩)).session.oauth = none ∧
    (authCallback ⟨some "c0", some "stB", none, none⟩ ⟨some ⟨"v", "stB", 0⟩, none⟩ 1000
        (.respond ⟨200, ⟨"a1", some "r1", 3600, "sc"⟩⟩)).redirect = "/dashboard.html" :=
  callback_success _ _ 1000 ⟨"v", "stB", 0⟩ "c0" "stB" ⟨200, ⟨"a1", some "r1", 3600, "sc"⟩⟩
    rfl rfl (by decide) rfl (by decide) rfl rfl (by decide) (by decide) (by decide)
